import Mathlib

/-!
Verification of the word-chain game engine (`GameRoom` and the socket event
router) of the blacktea repository.

The canonical Room implementation is the `GameRoom` class exported as
`roomModel` (the version with try/catch error wrapping and the tie-aware
`determineWinner`); the event router is `socketEvents.js`.  JavaScript values
are embedded as follows:

* a JS `Map` (insertion ordered, unique keys) is an association list
  `List (String × Player)`;
* a JS `Set` of strings is a `List String` with add-if-absent insertion;
* `null` becomes `Option.none`;
* a `setTimeout` handle is modelled by a `Bool` recording whether the timer
  is armed (`clearTimeout` disarms it);
* outbound socket emissions (`io.to(...).emit`) are collected in a
  `List Event` output rather than mutating state;
* a statement that throws is an `Except JsError` error value.
-/

namespace BlackTea

/-- Payloads of the outbound socket events emitted by the room. -/
inductive Msg where
  | errorOccurred (details : String)
  | redirectMainPage (details : String)
  | turnChanged (currentPlayer : String)
  | wordPlayFailed (reason : String)
  | wordPlayed (username word : String) (points : Nat)
  | gameStarted (firstPlayer : String) (players : List String)
  | gameStartedFailed (reason : String)
  | yourTurn (timeRemaining : Nat)
  | turnTimedOut (player : String)
  | gameEnded (winner : List String)
  | roomDeleted (reason : String)
  deriving DecidableEq, Repr

/-- One outbound notification: either addressed to a single player's socket
(`io.to(socketId).emit`) or broadcast to the whole room
(`io.to(this.roomId).emit`). -/
inductive Event where
  | toPlayer (username : String) (msg : Msg)
  | toRoom (msg : Msg)
  deriving DecidableEq, Repr

/-- A thrown JavaScript error. -/
inductive JsError where
  | referenceError (name : String)
  | typeError (msg : String)
  deriving DecidableEq, Repr

/-- The per-player record stored in `playersMap`:
`{ socketId: ..., points: ... }`. -/
structure Player where
  socketId : String
  points : Nat
  deriving DecidableEq, Repr

/-- The value stored in `this.validWords`.  On a successful
`loadWordList()` it is the `Set` of dictionary words; on the catch path
`loadWordList` returns the result of `this.broadcast(...)`, which is a
boolean, so the field can also hold a boolean. -/
inductive Dict where
  | words (ws : List String)
  | broadcastResult (b : Bool)
  deriving DecidableEq, Repr

/-- The mutable state of a `GameRoom` instance (timer handles are modelled
as armed-flags; notification emission is returned separately). -/
structure Room where
  creatorUsername : String
  roomId : String
  isRoomActive : Bool
  isGameStarted : Bool
  isGameEnded : Bool
  maxPlayers : Nat
  playersMap : List (String × Player)
  usedWordSet : List String
  lastWord : Option String
  roomExpiryTimer : Bool
  gameEndTimer : Bool
  roundTimer : Bool
  roomWinnerArray : Option (List String)
  currentTurn : String
  turnOrder : List String
  currentTurnIndex : Nat
  validWords : Dict
  deriving DecidableEq, Repr

/-- JS `String.prototype.toLowerCase` (the words in play are ASCII). -/
def strToLower (s : String) : String := ⟨s.data.map Char.toLower⟩

/-- JS `String.prototype.trim`. -/
def strTrim (s : String) : String :=
  ⟨((s.data.dropWhile Char.isWhitespace).reverse.dropWhile Char.isWhitespace).reverse⟩

/-- JS `word.charAt(0)` (empty string for an empty word). -/
def strFirst (s : String) : String := ⟨s.data.take 1⟩

/-- JS `word.slice(-1)` (empty string for an empty word). -/
def strLast (s : String) : String := ⟨s.data.drop (s.data.length - 1)⟩

/-- JS `Map.prototype.has`. -/
def mapHas (m : List (String × Player)) (k : String) : Bool :=
  (m.lookup k).isSome

/-- JS `Map.prototype.set`: overwrite in place if the key exists, else
append (insertion order preserved). -/
def mapSet (m : List (String × Player)) (k : String) (v : Player) :
    List (String × Player) :=
  if (m.lookup k).isSome then
    m.map (fun e => if e.1 = k then (k, v) else e)
  else
    m ++ [(k, v)]

/-- JS `Map.prototype.delete` (keys are unique in a JS `Map`). -/
def mapDelete (m : List (String × Player)) (k : String) :
    List (String × Player) :=
  m.filter (fun e => e.1 ≠ k)

/-- JS `Set.prototype.add` on an insertion-ordered string set. -/
def setAdd (s : List String) (w : String) : List String :=
  if w ∈ s then s else s ++ [w]

/-- The JS truthiness test `!this.lastWord` (null and `""` are falsy). -/
def falsyWord : Option String → Bool
  | none => true
  | some s => s.isEmpty

/-- Method `getUserSocket(username)`. -/
def getUserSocket (r : Room) (username : String) : Option String :=
  (r.playersMap.lookup username).map Player.socketId

/-- The room-wide notification emitted by `handleError(error, context)`. -/
def handleErrorEvents (details : String) : List Event :=
  [Event.toRoom (Msg.errorOccurred details)]

/-- Method `sendToPlayer(username, event, message)`: if no socket is found in the
player map, `handleError` broadcasts an `errorOccurred` to the whole room
and the method returns false; otherwise the message is emitted to that
player's socket.  Returns (return value, emitted events). -/
def sendToPlayer (r : Room) (username : String) (msg : Msg) :
    Bool × List Event :=
  match getUserSocket r username with
  | none =>
      (false, handleErrorEvents
        ("No socket was found in the player map for player " ++ username))
  | some _ => (true, [Event.toPlayer username msg])

/-- Method `broadcast(event, message)`: emits to the whole room. -/
def broadcast (msg : Msg) : List Event :=
  [Event.toRoom msg]

/-- Method `addPlayer(username, socketId)`. -/
def addPlayer (r : Room) (username socketId : String) :
    Bool × Room × List Event :=
  if r.playersMap.length ≥ r.maxPlayers then
    (false, r, handleErrorEvents "Room is full")
  else if mapHas r.playersMap username then
    (false, r, handleErrorEvents ("Player " ++ username ++ " already exists"))
  else
    (true, { r with playersMap := mapSet r.playersMap username ⟨socketId, 0⟩ }, [])

/-- Method `isWordUsed(word)`. -/
def isWordUsed (r : Room) (word : String) : Bool :=
  strToLower word ∈ r.usedWordSet

/-- Method `addUsedWords(word)`: inserts the lowercase word into `usedWordSet` and
sets `lastWord` to the same lowercase word. -/
def addUsedWords (r : Room) (word : String) : Room :=
  { r with usedWordSet := setAdd r.usedWordSet (strToLower word),
           lastWord := some (strToLower word) }

/-- Method `addPoints(username, points)`. -/
def addPoints (r : Room) (username : String) (points : Nat) : Bool × Room :=
  match r.playersMap.lookup username with
  | some p =>
      (true, { r with playersMap :=
        r.playersMap.map (fun e =>
          if e.1 = username then (username, { p with points := p.points + points })
          else e) })
  | none => (false, r)

/-- Method `initializeTurnOrder()`: the creator first, then the remaining player
keys permuted by `.sort(() => Math.random() - 0.5)`.  The random permutation
is modelled by the `shuffle` parameter; theorems only assume that `shuffle`
returns a permutation of its input, which is all JS `Array.prototype.sort`
guarantees for an inconsistent comparator. -/
def initializeTurnOrder (r : Room) (shuffle : List String → List String) :
    Room :=
  let to2 := r.creatorUsername ::
    shuffle (((r.playersMap.map Prod.fst).filter (fun u => u ≠ r.creatorUsername)))
  { r with turnOrder := to2, currentTurnIndex := 0, currentTurn := to2.getD 0 "" }

/-- Method `isPlayerTurn(username)`. -/
def isPlayerTurn (r : Room) (username : String) : Bool :=
  r.currentTurn = username

/-- Method `isValidWord(word)` evaluates `this.validWords.has(word.toLowerCase().trim())`.
When a dictionary-load failure left a boolean in `validWords`, the `.has`
member access throws a `TypeError`. -/
def isValidWord (r : Room) (word : String) : Except JsError Bool :=
  match r.validWords with
  | Dict.words ws => Except.ok (strTrim (strToLower word) ∈ ws)
  | Dict.broadcastResult _ =>
      Except.error (JsError.typeError "this.validWords.has is not a function")

/-- Method `nextTurn()`: advances `currentTurnIndex` modulo `turnOrder.length`,
updates `currentTurn` and broadcasts the turn change.  (Callers guarantee a
non-empty `turnOrder`; with an empty one the JS produces `NaN`/`undefined`,
a state no theorem below depends on.) -/
def nextTurn (r : Room) : Room × String × List Event :=
  let idx := (r.currentTurnIndex + 1) % r.turnOrder.length
  let ct := r.turnOrder.getD idx ""
  ({ r with currentTurnIndex := idx, currentTurn := ct }, ct,
    broadcast (Msg.turnChanged ct))

/-- Method `removePlayer(username)`: deletes the player from the map, splices them
out of `turnOrder` (via `indexOf`; the splice happens only when the index is
not -1), and if the removed player held the current turn either advances the
turn (when `turnOrder` is still non-empty, broadcasting the change) or calls
`this.endGame()`.  That `endGame` call throws a `ReferenceError` (see
`endGame` below), which the surrounding catch turns into a `handleError`
broadcast and a `false` return, skipping the `turnChanged` broadcast. -/
def removePlayer (r : Room) (username : String) : Bool × Room × List Event :=
  if mapHas r.playersMap username then
    let r1 := { r with playersMap := mapDelete r.playersMap username }
    let pi := r1.turnOrder.indexOf username
    let r2 :=
      if pi < r1.turnOrder.length then
        { r1 with turnOrder := r1.turnOrder.eraseIdx pi }
      else r1
    if r2.currentTurn = username then
      if 0 < r2.turnOrder.length then
        let idx := (r2.currentTurnIndex + 1) % r2.turnOrder.length
        let ct := r2.turnOrder.getD idx ""
        (true, { r2 with currentTurnIndex := idx, currentTurn := ct },
          broadcast (Msg.turnChanged ct))
      else
        (false, r2,
          handleErrorEvents "ReferenceError: username is not defined")
    else
      (true, r2, [])
  else
    (false, r, [])

/-- An ASCII single-quote character, as a string. -/
def squote : String := String.singleton (Char.ofNat 39)

/-- The rejection reason `Word must start with <c>` (with `c` quoted),
produced by the chain-letter check. -/
def wrongStartReason (c : String) : String :=
  "Word must start with " ++ squote ++ c ++ squote

/-- The result object of `validateWordPlay`, together with the events its
internal `handleError` may have broadcast on the catch path. -/
structure Validation where
  valid : Bool
  reason : String
  events : List Event
  deriving DecidableEq, Repr

/-- Method `validateWordPlay(username, word)`: turn check, then dictionary check,
then first-word exemption, then chain-letter check, then reuse check, in
that order; the whole body is wrapped in try/catch, and the only statement
that can throw is the `isValidWord` call (when `validWords` is not a set),
in which case `handleError` broadcasts and the result is invalid with an
unexpected-error reason. -/
def validateWordPlay (r : Room) (username word : String) : Validation :=
  if ¬ isPlayerTurn r username then
    ⟨false, "Not your turn", []⟩
  else
    match isValidWord r word with
    | Except.error e =>
        ⟨false, "An unexpected error occurred during word validation",
          handleErrorEvents (reprStr e)⟩
    | Except.ok false => ⟨false, "Not a valid word", []⟩
    | Except.ok true =>
        if falsyWord r.lastWord then
          ⟨true, "First word", []⟩
        else
          let lw := r.lastWord.getD ""
          let lastChar := strToLower (strLast lw)
          let firstChar := strToLower (strFirst word)
          if firstChar ≠ lastChar then
            ⟨false, wrongStartReason lastChar, []⟩
          else if strToLower word ∈ r.usedWordSet then
            ⟨false, "Word has been used before", []⟩
          else
            ⟨true, "Valid word", []⟩

/-- Method `startRound()`: clears any existing round timer, arms a fresh one, and
notifies the current player it is their turn. -/
def startRound (r : Room) : Room × List Event :=
  ({ r with roundTimer := true },
    (sendToPlayer r r.currentTurn (Msg.yourTurn 30)).2)

/-- Method `playWord(username, word)`: on validation failure, sends the reason to
the submitting player and returns false without touching state; on success,
clears the round timer, adds `word.length` points, records the word, then
broadcasts the play, advances the turn and starts the next round. -/
def playWord (r : Room) (username word : String) : Bool × Room × List Event :=
  let v := validateWordPlay r username word
  if ¬ v.valid then
    (false, r, v.events ++ (sendToPlayer r username (Msg.wordPlayFailed v.reason)).2)
  else
    let r1 := { r with roundTimer := false }
    let r2 := (addPoints r1 username word.length).2
    let r3 := addUsedWords r2 word
    let ev1 := broadcast (Msg.wordPlayed username word word.length)
    let n := nextTurn r3
    let s := startRound n.1
    (true, s.1, v.events ++ ev1 ++ n.2.2 ++ s.2)

/-- Method `startGame()`: returns false if already started; broadcasts a failure
when fewer than two players are present; otherwise initializes the turn
order, sets the phase flags, resets `usedWordSet` and `lastWord`, arms the
30-minute game-end timer, broadcasts `gameStarted` and starts the first
round. -/
def startGame (r : Room) (shuffle : List String → List String) :
    Bool × Room × List Event :=
  if r.isGameStarted then (false, r, [])
  else if r.playersMap.length < 2 then
    (false, r, broadcast (Msg.gameStartedFailed "Not enough players"))
  else
    let r1 := initializeTurnOrder r shuffle
    let r2 := { r1 with isGameStarted := true, isGameEnded := false,
                        usedWordSet := [], lastWord := none,
                        gameEndTimer := true }
    let ev := broadcast (Msg.gameStarted r2.currentTurn r2.turnOrder)
    let s := startRound r2
    (true, s.1, ev ++ s.2)

/-- Method `handleRoundTimeout()`: awards zero points to the timed-out player,
broadcasts the timeout, advances the turn and starts the next round. -/
def handleRoundTimeout (r : Room) : Room × List Event :=
  let r1 := (addPoints r r.currentTurn 0).2
  let ev := broadcast (Msg.turnTimedOut r.currentTurn)
  let n := nextTurn r1
  let s := startRound n.1
  (s.1, ev ++ n.2.2 ++ s.2)

/-- Method `endGame()` of the canonical `GameRoom`: its body is a duplicate of the
`playWord` body and its very first statement,
`const validation = this.validateWordPlay(username, word);`, evaluates the
identifiers `username` and `word`, which are not defined in `endGame`'s
scope.  Evaluation therefore throws `ReferenceError: username is not
defined` before any state is read or written; the function neither returns
a boolean nor mutates the room. -/
def endGame (_r : Room) : Except JsError (Bool × Room × List Event) :=
  Except.error (JsError.referenceError "username is not defined")

/-- Loop of `determineWinner()`: walks the players map in insertion order
keeping the running maximum (initialized to -1) and the list of players
holding it; a strictly higher score resets the list, an equal score appends. -/
def dwLoop : List (String × Player) → Int → List String → Int × List String
  | [], m, ws => (m, ws)
  | e :: rest, m, ws =>
    if (e.2.points : Int) > m then dwLoop rest (e.2.points : Int) [e.1]
    else if (e.2.points : Int) = m then dwLoop rest m (ws ++ [e.1])
    else dwLoop rest m ws

/-- Method `determineWinner()` of the canonical `GameRoom` (the tie-aware version):
returns every player whose points equal the running maximum. -/
def determineWinner (r : Room) : List String :=
  (dwLoop r.playersMap (-1) []).2

/-- Method `clearGameTimers()`: clears the game-end, round and room-expiry timers. -/
def clearGameTimers (r : Room) : Room :=
  { r with gameEndTimer := false, roundTimer := false, roomExpiryTimer := false }

/-- Method `deleteRoom(reason)`: clears all timers and broadcasts `roomDeleted`. -/
def deleteRoom (r : Room) (reason : String) : Room × List Event :=
  (clearGameTimers r, broadcast (Msg.roomDeleted reason))

/-- The room state constructed when `loadWordList()` hits its catch path:
`handleError` broadcasts an `errorOccurred`, then the function returns
`this.broadcast("redirectMainPage", ...)` — a boolean (`true` on successful
emission) — which the constructor stores in `this.validWords`. -/
def loadWordListFailure : Dict × List Event :=
  (Dict.broadcastResult true,
    handleErrorEvents "loading word list" ++
      [Event.toRoom (Msg.redirectMainPage
        "There was an issue loading the word list, redirecting ...")])

/-- A freshly constructed room (the constructor), with the dictionary given
by the outcome of `loadWordList()`. -/
def newRoom (creatorUsername roomId creatorSocketId : String) (dict : Dict) :
    Room :=
  { creatorUsername := creatorUsername
    roomId := roomId
    isRoomActive := true
    isGameStarted := false
    isGameEnded := false
    maxPlayers := 4
    playersMap := [(creatorUsername, ⟨creatorSocketId, 0⟩)]
    usedWordSet := []
    lastWord := none
    roomExpiryTimer := true
    gameEndTimer := false
    roundTimer := false
    roomWinnerArray := none
    currentTurn := creatorUsername
    turnOrder := []
    currentTurnIndex := 0
    validWords := dict }

/-! ### The event router's end-game handler (`socketEvents.endGame`) -/

/-- A user's persisted counters (`getUserStatsByUsername` result row). -/
structure UserStats where
  gamesPlayed : Nat
  gamesWon : Nat
  deriving DecidableEq, Repr

/-- One observable action of the router's end-game handler. -/
inductive RouterAction where
  | statsUpdated (username : String) (gamesPlayed gamesWon : Nat)
  | statsErrorLogged (username : String)
  | emitGameEnded (winners : List String)
  | roomDeleted (roomId : String)
  deriving DecidableEq, Repr

/-- One iteration of the router's per-winner loop: fetch the winner's
stats, then write back both counters incremented; the whole iteration sits
in its own try/catch, so a rejected fetch or update is logged and the loop
moves on.  The persistence layer is the `fetch`/`update` oracles. -/
def processWinner (fetch : String → Except String UserStats)
    (update : String → Nat → Nat → Except String Unit)
    (w : String) : RouterAction :=
  match fetch w with
  | Except.error _ => RouterAction.statsErrorLogged w
  | Except.ok st =>
    match update w (st.gamesPlayed + 1) (st.gamesWon + 1) with
    | Except.error _ => RouterAction.statsErrorLogged w
    | Except.ok _ =>
        RouterAction.statsUpdated w (st.gamesPlayed + 1) (st.gamesWon + 1)

/-- The router's `for (const winner of winners)` loop. -/
def updateWinnerLoop (fetch : String → Except String UserStats)
    (update : String → Nat → Nat → Except String Unit) :
    List String → List RouterAction
  | [] => []
  | w :: rest =>
      processWinner fetch update w :: updateWinnerLoop fetch update rest

/-- Handler `socketEvents.endGame` once the room is found: determine the winners
via the room's tie-aware `determineWinner`, run the best-effort stats loop,
broadcast `gameEnded` to the room, and delete the room from the registry. -/
def routerEndGame (fetch : String → Except String UserStats)
    (update : String → Nat → Nat → Except String Unit)
    (room : Room) : List RouterAction :=
  updateWinnerLoop fetch update (determineWinner room) ++
    [RouterAction.emitGameEnded (determineWinner room),
     RouterAction.roomDeleted room.roomId]

/-! ### Invariants, the operation step relation, and concrete states -/

/-- The spec's turn-pointer invariant: `currentTurnIndex` is a valid index
into `turnOrder` and `currentTurn` is the entry at that index. -/
abbrev turnInv (r : Room) : Prop :=
  r.currentTurnIndex < r.turnOrder.length ∧
    r.turnOrder.getD r.currentTurnIndex "" = r.currentTurn

/-- The spec's last-word invariant: whenever `lastWord` holds a word, that
word is a member of `usedWordSet`. -/
def wordInv (r : Room) : Prop :=
  ∀ w, r.lastWord = some w → w ∈ r.usedWordSet

/-- One mutating `GameRoom` method call, as a relation between the state
before and the state after.  `endGame` has no constructor: it throws before
reaching any assignment, so it never produces a new state. -/
inductive Step : Room → Room → Prop where
  | playerAdded (r : Room) (u sid : String) : Step r (addPlayer r u sid).2.1
  | playerRemoved (r : Room) (u : String) : Step r (removePlayer r u).2.1
  | wordRecorded (r : Room) (w : String) : Step r (addUsedWords r w)
  | pointsAdded (r : Room) (u : String) (n : Nat) : Step r (addPoints r u n).2
  | turnOrderInitialized (r : Room) (shuffle : List String → List String) :
      Step r (initializeTurnOrder r shuffle)
  | turnAdvanced (r : Room) : Step r (nextTurn r).1
  | wordSubmitted (r : Room) (u w : String) : Step r (playWord r u w).2.1
  | gameStartAttempted (r : Room) (shuffle : List String → List String) :
      Step r (startGame r shuffle).2.1
  | roundStarted (r : Room) : Step r (startRound r).1
  | roundTimeoutHandled (r : Room) : Step r (handleRoundTimeout r).1
  | timersCleared (r : Room) : Step r (clearGameTimers r)
  | roomDeleted (r : Room) (reason : String) : Step r (deleteRoom r reason).1

/-- The maximum score over the players map (0 for an empty map). -/
def maxScore (r : Room) : Nat :=
  r.playersMap.foldl (fun m e => max m e.2.points) 0

/-- A small dictionary for the concrete scenarios. -/
def dict0 : Dict :=
  Dict.words ["apple", "eagle", "elephant", "banana", "tiger"]

/-- A freshly created room: creator `a`, successfully loaded dictionary. -/
def room0 : Room := newRoom "a" "room1" "sa" dict0

/-- The lobby after player `b` joins `room0`. -/
def lobby2p : Room := (addPlayer room0 "b" "sb").2.1

/-- The in-progress game after `startGame()` on `lobby2p` (with the
identity permutation as the shuffle outcome): `turnOrder = [a, b]`,
creator `a` to move. -/
def room2p : Room := (startGame lobby2p id).2.1

/-- State of `room2p` after `a` plays `apple`: `b` to move at `currentTurnIndex = 1`,
`lastWord = "apple"`. -/
def roomAfterApple : Room := (playWord room2p "a" "apple").2.1

/-- State of `roomAfterApple` after `b` plays `eagle` and `a` plays `elephant`:
`b` to move, `lastWord = "elephant"`, `usedWordSet` contains `eagle`. -/
def roomChain : Room :=
  (playWord (playWord roomAfterApple "b" "eagle").2.1 "a" "elephant").2.1

/-- A three-player lobby built from `lobby2p` by adding `c`, from which the
creator `a` then leaves: the player set is `{b, c}` and no longer contains
the creator. -/
def roomNoCreator : Room :=
  (removePlayer (addPlayer lobby2p "c" "sc").2.1 "a").2.1

/-- A finished-score position with `a` and `b` tied at 5 points ahead of
`c` (reachable by the corresponding sequence of plays). -/
def roomTie : Room :=
  { room0 with
      playersMap := [("a", ⟨"sa", 5⟩), ("b", ⟨"sb", 5⟩), ("c", ⟨"sc", 3⟩)],
      isGameStarted := true,
      turnOrder := ["a", "b", "c"] }

/-- Persistence oracle for the router scenario: fetching `a`'s record
fails, every other fetch succeeds. -/
def fetchFailA : String → Except String UserStats :=
  fun w => if w = "a" then Except.error "db down" else Except.ok ⟨3, 1⟩

/-- Persistence oracle whose updates always succeed. -/
def updateOk : String → Nat → Nat → Except String Unit :=
  fun _ _ _ => Except.ok ()

/-! ### Helper lemmas -/

/-- With a successfully loaded dictionary, `validateWordPlay` never reaches
its catch path, so it emits no events. -/
theorem validateWordPlay_events_nil (r : Room) (username word : String)
    (ws : List String) (hd : r.validWords = Dict.words ws) :
    (validateWordPlay r username word).events = [] := by
  simp only [validateWordPlay, isValidWord, hd]
  split
  · rfl
  · split
    · rename_i h; simp at h
    · rfl
    · split
      · rfl
      · split
        · rfl
        · split <;> rfl

/-- A player present in the map has a socket. -/
theorem getUserSocket_of_mapHas (r : Room) (u : String)
    (hm : mapHas r.playersMap u = true) :
    ∃ s, getUserSocket r u = some s := by
  unfold mapHas at hm
  unfold getUserSocket
  cases h : r.playersMap.lookup u with
  | none => rw [h] at hm; simp at hm
  | some p => exact ⟨p.socketId, rfl⟩

/-- Every branch of `removePlayer` leaves the phase flags, the round timer,
`usedWordSet` and `lastWord` untouched (the branch that calls `endGame`
throws before `endGame` can touch them). -/
theorem removePlayer_preserves_phase (r : Room) (u : String) :
    ((removePlayer r u).2.1).isGameStarted = r.isGameStarted ∧
    ((removePlayer r u).2.1).isGameEnded = r.isGameEnded ∧
    ((removePlayer r u).2.1).roundTimer = r.roundTimer ∧
    ((removePlayer r u).2.1).usedWordSet = r.usedWordSet ∧
    ((removePlayer r u).2.1).lastWord = r.lastWord := by
  simp only [removePlayer]
  split_ifs <;> simp

/-- Deleting a present key from a map with unique keys removes exactly one
entry. -/
theorem mapDelete_length (m : List (String × Player)) (u : String)
    (hnd : (m.map Prod.fst).Nodup) (hm : (m.lookup u).isSome = true) :
    (mapDelete m u).length + 1 = m.length := by
  induction m with
  | nil => simp at hm
  | cons e rest ih =>
    obtain ⟨k, v⟩ := e
    rw [List.map_cons, List.nodup_cons] at hnd
    by_cases he : k = u
    · subst he
      have hrest : mapDelete rest k = rest := by
        apply List.filter_eq_self.mpr
        intro x hx
        have hx1 : x.1 ∈ List.map Prod.fst rest := List.mem_map_of_mem Prod.fst hx
        have hne : x.1 ≠ k := fun hxu => hnd.1 (hxu ▸ hx1)
        simpa using hne
      unfold mapDelete at hrest ⊢
      rw [List.filter_cons_of_neg (by simp), hrest, List.length_cons]
    · have hm2 : (rest.lookup u).isSome = true := by
        cases hEq : (u == k) with
        | true => exact absurd (by simpa using hEq) (Ne.symm he)
        | false =>
          unfold List.lookup at hm
          rw [hEq] at hm
          exact hm
      unfold mapDelete at ih ⊢
      rw [List.filter_cons_of_pos (by simpa using he), List.length_cons,
        List.length_cons, ih hnd.2 hm2]

/-- When the player is present, `removePlayer` deletes them from the map in
every subsequent branch. -/
theorem removePlayer_playersMap (r : Room) (u : String)
    (hu : mapHas r.playersMap u = true) :
    ((removePlayer r u).2.1).playersMap = mapDelete r.playersMap u := by
  simp only [removePlayer, hu]
  split_ifs <;> rfl

/-- The first occurrence of the element at position `i` is at or before
`i`. -/
theorem indexOf_le_of_getD (l : List String) (i : Nat) (u : String)
    (hi : i < l.length) (he : l.getD i "" = u) : l.indexOf u ≤ i := by
  induction l generalizing i with
  | nil => simp at hi
  | cons a t ih =>
    cases i with
    | zero =>
      rw [List.getD_cons_zero] at he
      rw [he, List.indexOf_cons_self]
    | succ j =>
      rw [List.getD_cons_succ] at he
      by_cases hau : a = u
      · rw [hau, List.indexOf_cons_self]
        omega
      · rw [List.indexOf_cons_ne _ hau]
        have hj : j < t.length := by
          simpa using Nat.lt_of_succ_lt_succ hi
        have := ih j hj he
        omega

/-- An in-range `getD` value is a member of the list. -/
theorem mem_of_getD (l : List String) (i : Nat) (u : String)
    (hi : i < l.length) (he : l.getD i "" = u) : u ∈ l := by
  rw [List.getD_eq_getElem?_getD, List.getElem?_eq_getElem hi] at he
  simp only [Option.getD_some] at he
  exact he ▸ List.getElem_mem hi

/-- With a non-empty `turnOrder`, `nextTurn` re-establishes the
turn-pointer invariant by construction. -/
theorem nextTurn_turnInv (r : Room) (hne : r.turnOrder ≠ []) :
    turnInv (nextTurn r).1 :=
  ⟨Nat.mod_lt _ (List.length_pos.2 hne), rfl⟩

/-- Removing the current-turn player preserves the turn-pointer invariant
when at least one other entry remains in `turnOrder`, because the code
reassigns both the index and `currentTurn` from the spliced array. -/
theorem removePlayer_turnInv_current (r : Room) (u : String)
    (hcur : r.currentTurn = u) (hlen : 2 ≤ r.turnOrder.length)
    (hin : turnInv r) : turnInv (removePlayer r u).2.1 := by
  by_cases hmu : mapHas r.playersMap u = true
  case neg =>
    simp only [removePlayer, hmu, if_false, Bool.false_eq_true]
    exact hin
  case pos =>
    have hu_mem : u ∈ r.turnOrder :=
      mem_of_getD r.turnOrder r.currentTurnIndex u hin.1 (hin.2.trans hcur)
    have hpi : r.turnOrder.indexOf u < r.turnOrder.length :=
      List.indexOf_lt_length.2 hu_mem
    have hlen2 : (r.turnOrder.eraseIdx (r.turnOrder.indexOf u)).length + 1 =
        r.turnOrder.length := List.length_eraseIdx_add_one hpi
    simp only [removePlayer, hmu, if_true]
    split_ifs with h1
    · exact ⟨Nat.mod_lt _ h1, rfl⟩
    · exact absurd
        (show 0 < (r.turnOrder.eraseIdx (r.turnOrder.indexOf u)).length by omega) h1

/-- Removing a player whose first occurrence in `turnOrder` lies strictly
after `currentTurnIndex` preserves the turn-pointer invariant: the entries
at or before the current index are unaffected by the splice. -/
theorem removePlayer_turnInv_after (r : Room) (u : String)
    (hlt : r.currentTurnIndex < r.turnOrder.indexOf u)
    (hin : turnInv r) : turnInv (removePlayer r u).2.1 := by
  by_cases hmu : mapHas r.playersMap u = true
  case neg =>
    simp only [removePlayer, hmu, if_false, Bool.false_eq_true]
    exact hin
  case pos =>
    have hne_cur : ¬ r.currentTurn = u := by
      intro hc
      exact absurd (indexOf_le_of_getD r.turnOrder r.currentTurnIndex u hin.1
        (hin.2.trans hc)) (by omega)
    simp only [removePlayer, hmu, if_true]
    split_ifs with h1
    · have hlen2 : (r.turnOrder.eraseIdx (r.turnOrder.indexOf u)).length + 1 =
          r.turnOrder.length := List.length_eraseIdx_add_one h1
      refine ⟨?_, ?_⟩
      · show r.currentTurnIndex <
          (r.turnOrder.eraseIdx (r.turnOrder.indexOf u)).length
        omega
      · show (r.turnOrder.eraseIdx (r.turnOrder.indexOf u)).getD
          r.currentTurnIndex "" = r.currentTurn
        rw [List.getD_eq_getElem?_getD,
          List.getElem?_eraseIdx_of_lt r.turnOrder (r.turnOrder.indexOf u)
            r.currentTurnIndex hlt,
          ← List.getD_eq_getElem?_getD]
        exact hin.2
    · exact hin

/-- Adding an element to a set always makes it a member. -/
theorem setAdd_self_mem (s : List String) (a : String) : a ∈ setAdd s a := by
  unfold setAdd
  split
  · assumption
  · simp

theorem startRound_lastWord (r : Room) : (startRound r).1.lastWord = r.lastWord := rfl

theorem startRound_used (r : Room) :
    (startRound r).1.usedWordSet = r.usedWordSet := rfl

theorem nextTurn_lastWord (r : Room) : (nextTurn r).1.lastWord = r.lastWord := rfl

theorem nextTurn_used (r : Room) : (nextTurn r).1.usedWordSet = r.usedWordSet := rfl

theorem addPoints_lastWord (r : Room) (u : String) (n : Nat) :
    ((addPoints r u n).2).lastWord = r.lastWord := by
  unfold addPoints
  split <;> rfl

theorem addPoints_used (r : Room) (u : String) (n : Nat) :
    ((addPoints r u n).2).usedWordSet = r.usedWordSet := by
  unfold addPoints
  split <;> rfl

/-- Recording a word establishes the last-word invariant outright: the same
lowercase word is stored in both fields. -/
theorem addUsedWords_wordInv (r : Room) (w : String) :
    wordInv (addUsedWords r w) := by
  intro x hx
  have hx2 : some (strToLower w) = some x := hx
  obtain rfl : strToLower w = x := Option.some.inj hx2
  exact setAdd_self_mem r.usedWordSet (strToLower w)

/-- The running maximum of the `determineWinner` loop is the fold of `max`
over the points. -/
theorem dwLoop_max (l : List (String × Player)) (m : Int) (ws : List String) :
    (dwLoop l m ws).1 = l.foldl (fun acc e => max acc (e.2.points : Int)) m := by
  induction l generalizing m ws with
  | nil => rfl
  | cons e rest ih =>
    rw [List.foldl_cons]
    unfold dwLoop
    split_ifs with h1 h2
    · rw [ih]
      congr 1
      omega
    · rw [ih]
      congr 1
      omega
    · rw [ih]
      congr 1
      omega

theorem le_foldl_max (l : List (String × Player)) (m : Int) :
    m ≤ l.foldl (fun acc e => max acc (e.2.points : Int)) m := by
  induction l generalizing m with
  | nil => simp
  | cons e rest ih =>
    rw [List.foldl_cons]
    exact le_trans (le_max_left _ _) (ih (max m (e.2.points : Int)))

theorem le_dwLoop_max (l : List (String × Player)) (m : Int) (ws : List String) :
    m ≤ (dwLoop l m ws).1 := by
  rw [dwLoop_max]
  exact le_foldl_max l m

/-- Membership in the `determineWinner` loop result: a player is kept
exactly when the initial candidates survive (the maximum never moved) or
the player's points equal the final maximum. -/
theorem dwLoop_mem (l : List (String × Player)) (m : Int) (ws : List String)
    (u : String) :
    u ∈ (dwLoop l m ws).2 ↔
      (u ∈ ws ∧ (dwLoop l m ws).1 = m) ∨
      ∃ p, (u, p) ∈ l ∧ (p.points : Int) = (dwLoop l m ws).1 := by
  induction l generalizing m ws with
  | nil => simp [dwLoop]
  | cons e rest ih =>
    unfold dwLoop
    split_ifs with h1 h2
    · rw [ih]
      have hM : (e.2.points : Int) ≤ (dwLoop rest (e.2.points : Int) [e.1]).1 :=
        le_dwLoop_max rest _ [e.1]
      constructor
      · rintro (⟨hu, hMp⟩ | ⟨p, hp, hpM⟩)
        · refine Or.inr ⟨e.2, ?_, ?_⟩
          · rw [List.mem_singleton] at hu
            rw [hu]
            exact List.mem_cons_self e rest
          · omega
        · exact Or.inr ⟨p, List.mem_cons_of_mem e hp, hpM⟩
      · rintro (⟨hu, hMm⟩ | ⟨p, hp, hpM⟩)
        · exact absurd hMm (by omega)
        · rcases List.mem_cons.mp hp with heq | hrest
          · refine Or.inl ⟨?_, ?_⟩
            · have : u = e.1 := congrArg Prod.fst heq
              simp [this]
            · have : p = e.2 := congrArg Prod.snd heq
              rw [this] at hpM
              omega
          · exact Or.inr ⟨p, hrest, hpM⟩
    · rw [ih]
      constructor
      · rintro (⟨hu, hMm⟩ | ⟨p, hp, hpM⟩)
        · rcases List.mem_append.mp hu with hws | he1
          · exact Or.inl ⟨hws, hMm⟩
          · refine Or.inr ⟨e.2, ?_, ?_⟩
            · rw [List.mem_singleton] at he1
              rw [he1]
              exact List.mem_cons_self e rest
            · omega
        · exact Or.inr ⟨p, List.mem_cons_of_mem e hp, hpM⟩
      · rintro (⟨hu, hMm⟩ | ⟨p, hp, hpM⟩)
        · exact Or.inl ⟨List.mem_append_left _ hu, hMm⟩
        · rcases List.mem_cons.mp hp with heq | hrest
          · refine Or.inl ⟨?_, ?_⟩
            · have hu1 : u = e.1 := congrArg Prod.fst heq
              exact List.mem_append_right _ (by simp [hu1])
            · have hp2 : p = e.2 := congrArg Prod.snd heq
              rw [hp2] at hpM
              omega
          · exact Or.inr ⟨p, hrest, hpM⟩
    · rw [ih]
      have hM : m ≤ (dwLoop rest m ws).1 := le_dwLoop_max rest m ws
      constructor
      · rintro (⟨hu, hMm⟩ | ⟨p, hp, hpM⟩)
        · exact Or.inl ⟨hu, hMm⟩
        · exact Or.inr ⟨p, List.mem_cons_of_mem e hp, hpM⟩
      · rintro (⟨hu, hMm⟩ | ⟨p, hp, hpM⟩)
        · exact Or.inl ⟨hu, hMm⟩
        · rcases List.mem_cons.mp hp with heq | hrest
          · have hp2 : p = e.2 := congrArg Prod.snd heq
            rw [hp2] at hpM
            omega
          · exact Or.inr ⟨p, hrest, hpM⟩

theorem foldl_int_nat (l : List (String × Player)) (n : Nat) :
    l.foldl (fun acc e => max acc (e.2.points : Int)) (n : Int) =
      ((l.foldl (fun m e => max m e.2.points) n : Nat) : Int) := by
  induction l generalizing n with
  | nil => rfl
  | cons e rest ih =>
    rw [List.foldl_cons, List.foldl_cons]
    rw [show max ((n : Nat) : Int) (e.2.points : Int) =
        ((max n e.2.points : Nat) : Int) by push_cast; rfl]
    exact ih (max n e.2.points)

/-- On a non-empty players map the integer fold starting at -1 equals the
natural-number maximum score. -/
theorem foldl_max_int_eq (l : List (String × Player)) (hne : l ≠ []) :
    l.foldl (fun acc e => max acc (e.2.points : Int)) (-1) =
      ((l.foldl (fun m e => max m e.2.points) 0 : Nat) : Int) := by
  cases l with
  | nil => contradiction
  | cons e rest =>
    rw [List.foldl_cons, List.foldl_cons]
    rw [show max (-1 : Int) (e.2.points : Int) = (e.2.points : Int) by omega]
    rw [show max (0 : Nat) e.2.points = e.2.points by omega]
    exact foldl_int_nat rest e.2.points

/-- The router's winner loop acts on each winner independently. -/
theorem updateWinnerLoop_eq_map (fetch : String → Except String UserStats)
    (update : String → Nat → Nat → Except String Unit) (l : List String) :
    updateWinnerLoop fetch update l = l.map (processWinner fetch update) := by
  induction l with
  | nil => rfl
  | cons w rest ih =>
    unfold updateWinnerLoop
    rw [ih]
    rfl

/-! ### Claim theorems -/

/-- C1: in a reachable in-progress room (two players, game started, not
ended), the canonical `GameRoom.endGame()` does not return a boolean, does
not compute winners and does not move the phase to Finished: its body is a
copy of `playWord` referencing the undefined identifiers `username` and
`word`, so evaluation throws `ReferenceError: username is not defined`
before any state is touched, contradicting `endGame`'s own documentation
("Ends the game, determines the winner, and broadcasts the results"). -/
theorem c1_endGame_throws :
    room2p.isGameStarted = true ∧ room2p.isGameEnded = false ∧
    endGame room2p =
      Except.error (JsError.referenceError "username is not defined") :=
  ⟨rfl, rfl, rfl⟩

/-- C2 counterexample: a two-player in-progress game from which a player is
removed does NOT end: after `removePlayer` the room has one player, the
phase is still in-progress (`gameEnded` false, `gameStarted` true) and the
round timer is still armed, contradicting the claim that the game
immediately ends with phase Finished and no round timer. -/
theorem c2_counterexample :
    room2p.isGameStarted = true ∧ room2p.isGameEnded = false ∧
    room2p.playersMap.length = 2 ∧
    (removePlayer room2p "b").1 = true ∧
    ((removePlayer room2p "b").2.1).playersMap.length = 1 ∧
    ((removePlayer room2p "b").2.1).isGameEnded = false ∧
    ((removePlayer room2p "b").2.1).isGameStarted = true ∧
    ((removePlayer room2p "b").2.1).roundTimer = true := by
  decide

/-- C2 (amended): for every in-progress game with exactly two players
(unique keys), `removePlayer` on either player leaves exactly one player
but does not end the game: the phase flags stay in-progress and the round
timer is unchanged (`removePlayer` calls `endGame` only when `turnOrder`
empties, and that call throws and is swallowed by the catch). -/
theorem c2_remove_player_keeps_game (r : Room) (u : String)
    (hnd : (r.playersMap.map Prod.fst).Nodup)
    (h2 : r.playersMap.length = 2)
    (hu : mapHas r.playersMap u = true)
    (hs : r.isGameStarted = true) (he : r.isGameEnded = false) :
    ((removePlayer r u).2.1).playersMap.length = 1 ∧
    ((removePlayer r u).2.1).isGameStarted = true ∧
    ((removePlayer r u).2.1).isGameEnded = false ∧
    ((removePlayer r u).2.1).roundTimer = r.roundTimer := by
  have hph := removePlayer_preserves_phase r u
  refine ⟨?_, hph.1.trans hs, hph.2.1.trans he, hph.2.2.1⟩
  rw [removePlayer_playersMap r u hu]
  have := mapDelete_length r.playersMap u hnd (by simpa [mapHas] using hu)
  omega

/-- C2 witness: the amended statement at the concrete two-player game. -/
theorem c2_witness :
    ((removePlayer room2p "b").2.1).playersMap.length = 1 ∧
    ((removePlayer room2p "b").2.1).isGameStarted = true ∧
    ((removePlayer room2p "b").2.1).isGameEnded = false ∧
    ((removePlayer room2p "b").2.1).roundTimer = room2p.roundTimer :=
  c2_remove_player_keeps_game room2p "b" (by decide) (by decide) (by decide)
    rfl rfl

/-- C3 counterexample: in the reachable in-progress state where `a` has
played and `b` holds the turn at `currentTurnIndex = 1`, removing the
non-current player `a` leaves `currentTurnIndex = 1` pointing past the end
of the spliced `turnOrder = [b]`, so `currentTurn = turnOrder[currentTurnIndex]`
fails after the (successful) `removePlayer` call. -/
theorem c3_counterexample :
    turnInv roomAfterApple ∧ roomAfterApple.isGameStarted = true ∧
    roomAfterApple.isGameEnded = false ∧
    (removePlayer roomAfterApple "a").1 = true ∧
    ((removePlayer roomAfterApple "a").2.1).isGameStarted = true ∧
    ((removePlayer roomAfterApple "a").2.1).isGameEnded = false ∧
    ¬ turnInv (removePlayer roomAfterApple "a").2.1 := by
  decide

/-- C3 (amended): `currentTurn = turnOrder[currentTurnIndex]` is preserved
by `nextTurn` (on a non-empty turn order), by `removePlayer` of the
current-turn player when at least two turn-order entries exist, and by
`removePlayer` of a player whose first `turnOrder` occurrence lies strictly
after `currentTurnIndex`; removing a player at or before the current index
who is not the current player can break the invariant. -/
theorem c3_turn_invariant_amended (r : Room) (h : turnInv r) :
    (r.turnOrder ≠ [] → turnInv (nextTurn r).1) ∧
    (∀ u, r.currentTurn = u → 2 ≤ r.turnOrder.length →
      turnInv (removePlayer r u).2.1) ∧
    (∀ u, r.currentTurnIndex < r.turnOrder.indexOf u →
      turnInv (removePlayer r u).2.1) :=
  ⟨fun hne => nextTurn_turnInv r hne,
   fun u hcur hlen => removePlayer_turnInv_current r u hcur hlen h,
   fun u hlt => removePlayer_turnInv_after r u hlt h⟩

/-- C3 witness: the amended statement applied at the concrete two-player
game, for `nextTurn` and for removal of the current-turn player. -/
theorem c3_witness :
    turnInv (nextTurn room2p).1 ∧ turnInv (removePlayer room2p "a").2.1 :=
  ⟨(c3_turn_invariant_amended room2p (by decide)).1 (by decide),
   (c3_turn_invariant_amended room2p (by decide)).2.1 "a" (by decide)
     (by decide)⟩

/-- C4 counterexample: starting a game in a room whose creator `a` has left
(players `{b, c}`) succeeds and produces `turnOrder = [a, b, c]`, which
contains the absent creator and is not a permutation of the current player
set (the identity shuffle is one legitimate outcome of the random sort). -/
theorem c4_counterexample :
    (startGame roomNoCreator id).1 = true ∧
    ((startGame roomNoCreator id).2.1).turnOrder = ["a", "b", "c"] ∧
    mapHas roomNoCreator.playersMap "a" = false ∧
    (id ["b", "c"] : List String).Perm ["b", "c"] ∧
    ¬ ((startGame roomNoCreator id).2.1).turnOrder.Perm
        (roomNoCreator.playersMap.map Prod.fst) := by
  decide

/-- C4 (amended): for any shuffle that permutes its input, a successful
`startGame` produces `turnOrder` with the creator at index 0, and when the
creator is still among the (uniquely keyed) players, `turnOrder` is a
permutation of exactly the current player set; when the creator has left,
`turnOrder` additionally contains the absent creator. -/
theorem c4_turn_order_amended (r : Room) (shuffle : List String → List String)
    (hsh : ∀ l, (shuffle l).Perm l)
    (hc : r.creatorUsername ∈ r.playersMap.map Prod.fst)
    (hnd : (r.playersMap.map Prod.fst).Nodup)
    (hns : r.isGameStarted = false) (h2 : 2 ≤ r.playersMap.length) :
    (startGame r shuffle).1 = true ∧
    ((startGame r shuffle).2.1).turnOrder.getD 0 "" = r.creatorUsername ∧
    ((startGame r shuffle).2.1).turnOrder.Perm (r.playersMap.map Prod.fst) := by
  have hlt : ¬ r.playersMap.length < 2 := by omega
  simp only [startGame, hns, Bool.false_eq_true, if_false, hlt]
  refine ⟨trivial, rfl, ?_⟩
  show (r.creatorUsername ::
      shuffle ((r.playersMap.map Prod.fst).filter
        (fun u => u ≠ r.creatorUsername))).Perm (r.playersMap.map Prod.fst)
  refine List.Perm.trans (List.Perm.cons _ (hsh _)) ?_
  have he := List.perm_cons_erase hc
  rw [hnd.erase_eq_filter] at he
  refine List.Perm.trans ?_ he.symm
  have hfe : ((r.playersMap.map Prod.fst).filter (fun u => u ≠ r.creatorUsername)) =
      ((r.playersMap.map Prod.fst).filter (fun x => x != r.creatorUsername)) := by
    apply List.filter_congr
    intro x _
    simp only [ne_eq, decide_not]
    rfl
  rw [hfe]

/-- C4 witness: the amended statement at the concrete two-player lobby with
the identity permutation as the shuffle outcome. -/
theorem c4_witness :
    (startGame lobby2p id).1 = true ∧
    ((startGame lobby2p id).2.1).turnOrder.getD 0 "" = lobby2p.creatorUsername ∧
    ((startGame lobby2p id).2.1).turnOrder.Perm (lobby2p.playersMap.map Prod.fst) :=
  c4_turn_order_amended lobby2p id (fun l => List.Perm.refl l) (by decide)
    (by decide) rfl (by decide)

/-- C5: with a loaded dictionary, `validateWordPlay` applies its checks in
the fixed order turn, dictionary, first-word exemption, chain letter,
reuse, returning the first applicable rejection reason; with an empty
`lastWord` the word is accepted as "First word" with no chain or reuse
check, and a word failing the chain check is rejected for the wrong
starting letter regardless of whether it was already used. -/
theorem c5_validation_order (r : Room) (username word : String)
    (ws : List String) (hd : r.validWords = Dict.words ws) :
    (isPlayerTurn r username = false →
      validateWordPlay r username word = ⟨false, "Not your turn", []⟩) ∧
    (isPlayerTurn r username = true → strTrim (strToLower word) ∉ ws →
      validateWordPlay r username word = ⟨false, "Not a valid word", []⟩) ∧
    (isPlayerTurn r username = true → strTrim (strToLower word) ∈ ws →
      falsyWord r.lastWord = true →
      validateWordPlay r username word = ⟨true, "First word", []⟩) ∧
    (isPlayerTurn r username = true → strTrim (strToLower word) ∈ ws →
      falsyWord r.lastWord = false →
      strToLower (strFirst word) ≠ strToLower (strLast (r.lastWord.getD "")) →
      validateWordPlay r username word =
        ⟨false, wrongStartReason (strToLower (strLast (r.lastWord.getD ""))), []⟩) := by
  refine ⟨?_, ?_, ?_, ?_⟩
  · intro h; simp [validateWordPlay, h]
  · intro h hmem; simp [validateWordPlay, isValidWord, hd, h, hmem]
  · intro h hmem hf; simp [validateWordPlay, isValidWord, hd, h, hmem, hf]
  · intro h hmem hf hne
    simp [validateWordPlay, isValidWord, hd, h, hmem, hf, hne]

/-- C5 witness: in the reachable state with `lastWord = "elephant"` and
`eagle` already used, `b` submitting `eagle` fails both the chain and the
reuse condition and is rejected for the wrong starting letter. -/
theorem c5_witness :
    isPlayerTurn roomChain "b" = true ∧
    strTrim (strToLower "eagle") ∈ ["apple", "eagle", "elephant", "banana", "tiger"] ∧
    falsyWord roomChain.lastWord = false ∧
    strToLower (strFirst "eagle") ≠ strToLower (strLast (roomChain.lastWord.getD "")) ∧
    strToLower "eagle" ∈ roomChain.usedWordSet ∧
    validateWordPlay roomChain "b" "eagle" =
      ⟨false, wrongStartReason (strToLower (strLast (roomChain.lastWord.getD ""))), []⟩ :=
  ⟨by decide, by decide, by decide, by decide, by decide,
    (c5_validation_order roomChain "b" "eagle"
        ["apple", "eagle", "elephant", "banana", "tiger"] rfl).2.2.2
      (by decide) (by decide) (by decide) (by decide)⟩

/-- C6 counterexample: for the identity `z`, which is not in the players
map, `validateWordPlay` fails with "Not your turn" and `playWord` leaves
the room unchanged and returns failure, but it does NOT notify the
submitting player with the reason: `sendToPlayer` finds no socket and
`handleError` broadcasts a room-wide `errorOccurred` instead. -/
theorem c6_counterexample :
    (validateWordPlay room2p "z" "apple").valid = false ∧
    (playWord room2p "z" "apple").1 = false ∧
    (playWord room2p "z" "apple").2.1 = room2p ∧
    (playWord room2p "z" "apple").2.2 =
      [Event.toRoom (Msg.errorOccurred
        "No socket was found in the player map for player z")] := by
  decide

/-- C6 (amended): for every identity present in the players map and every
word, in a room with a loaded dictionary, when `validateWordPlay` fails
`playWord` returns failure, leaves the entire room state unchanged, and
emits exactly one notification: the rejection reason to the submitting
player alone. -/
theorem c6_failure_private (r : Room) (username word : String)
    (ws : List String) (hd : r.validWords = Dict.words ws)
    (hm : mapHas r.playersMap username = true)
    (hv : (validateWordPlay r username word).valid = false) :
    playWord r username word =
      (false, r,
        [Event.toPlayer username
          (Msg.wordPlayFailed (validateWordPlay r username word).reason)]) := by
  obtain ⟨s, hs⟩ := getUserSocket_of_mapHas r username hm
  unfold playWord
  simp only [hv, Bool.false_eq_true, not_false_eq_true, if_true,
    validateWordPlay_events_nil r username word ws hd, sendToPlayer, hs]
  rfl

/-- C6 witness: player `b` submitting a word not in the dictionary is the
only recipient of the failure reason, and the room state is unchanged. -/
theorem c6_witness :
    (validateWordPlay room2p "b" "zzz").valid = false ∧
    playWord room2p "b" "zzz" =
      (false, room2p,
        [Event.toPlayer "b"
          (Msg.wordPlayFailed (validateWordPlay room2p "b" "zzz").reason)]) :=
  ⟨by decide,
    c6_failure_private room2p "b" "zzz"
      ["apple", "eagle", "elephant", "banana", "tiger"] rfl (by decide)
      (by decide)⟩

/-- C7: when `loadWordList` fails, the room is still constructed (active)
and a room-wide error notification is emitted, but `validWords` holds the
boolean returned by `this.broadcast(...)` instead of a fallback dictionary,
so `isValidWord` on any word throws a `TypeError` instead of returning
false — contradicting the declared `Set<string>`/`boolean` return types of
`loadWordList` and `isValidWord`. -/
theorem c7_dictionary_failure_raises :
    (newRoom "a" "room7" "sa" loadWordListFailure.1).isRoomActive = true ∧
    Event.toRoom (Msg.errorOccurred "loading word list") ∈ loadWordListFailure.2 ∧
    isValidWord (newRoom "a" "room7" "sa" loadWordListFailure.1) "apple" =
      Except.error (JsError.typeError "this.validWords.has is not a function") :=
  ⟨rfl, by decide, rfl⟩

/-- C8: on a non-empty players map, `determineWinner` returns exactly the
players whose score equals the maximum score: every tied player is
included and no player with a lower score appears. -/
theorem c8_determine_winner_ties (r : Room) (h : r.playersMap ≠ [])
    (u : String) :
    u ∈ determineWinner r ↔
      ∃ p, (u, p) ∈ r.playersMap ∧ p.points = maxScore r := by
  unfold determineWinner
  rw [dwLoop_mem]
  have hM : (dwLoop r.playersMap (-1) []).1 = ((maxScore r : Nat) : Int) := by
    rw [dwLoop_max]
    exact foldl_max_int_eq r.playersMap h
  rw [hM]
  simp only [List.not_mem_nil, false_and, false_or]
  constructor
  · rintro ⟨p, hp, hpM⟩
    exact ⟨p, hp, by exact_mod_cast hpM⟩
  · rintro ⟨p, hp, hpM⟩
    exact ⟨p, hp, by exact_mod_cast hpM⟩

/-- C8 witness: with `a` and `b` tied at 5 ahead of `c`, both tied players
are winners. -/
theorem c8_witness :
    "b" ∈ determineWinner roomTie ∧ "a" ∈ determineWinner roomTie :=
  ⟨(c8_determine_winner_ties roomTie (by decide) "b").2
      ⟨⟨"sb", 5⟩, by decide, by decide⟩,
   (c8_determine_winner_ties roomTie (by decide) "a").2
      ⟨⟨"sa", 5⟩, by decide, by decide⟩⟩

/-- C9: in the router's end-game handling, a winner whose own fetch and
update succeed has their stats written regardless of any other winner's
persistence outcome, and the `gameEnded` broadcast is always emitted — no
hypothesis constrains the oracles at any other winner. -/
theorem c9_stats_best_effort (fetch : String → Except String UserStats)
    (update : String → Nat → Nat → Except String Unit)
    (room : Room) (w : String) (st : UserStats)
    (hw : w ∈ determineWinner room)
    (hf : fetch w = Except.ok st)
    (hu : update w (st.gamesPlayed + 1) (st.gamesWon + 1) = Except.ok ()) :
    RouterAction.statsUpdated w (st.gamesPlayed + 1) (st.gamesWon + 1) ∈
      routerEndGame fetch update room ∧
    RouterAction.emitGameEnded (determineWinner room) ∈
      routerEndGame fetch update room := by
  unfold routerEndGame
  constructor
  · apply List.mem_append_left
    rw [updateWinnerLoop_eq_map]
    refine List.mem_map.2 ⟨w, hw, ?_⟩
    simp [processWinner, hf, hu]
  · apply List.mem_append_right
    simp

/-- C9 witness: with a persistence oracle that fails for winner `a`,
winner `b`'s stats are still updated and the broadcast is still emitted. -/
theorem c9_witness :
    RouterAction.statsUpdated "b" 4 2 ∈ routerEndGame fetchFailA updateOk roomTie ∧
    RouterAction.emitGameEnded (determineWinner roomTie) ∈
      routerEndGame fetchFailA updateOk roomTie :=
  c9_stats_best_effort fetchFailA updateOk roomTie "b" ⟨3, 1⟩ (by decide) rfl rfl

/-- C10: every room operation preserves the invariant that whenever
`lastWord` holds a word, that lowercase word is a member of `usedWordSet`:
`addUsedWords` (and hence a successful `playWord`) writes both fields
consistently, `startGame` clears the set while resetting `lastWord`, and no
other operation touches either field. -/
theorem c10_last_word_in_used (r r2 : Room) (hw : wordInv r)
    (hs : Step r r2) : wordInv r2 := by
  cases hs with
  | playerAdded u sid =>
    simp only [addPlayer]
    split_ifs <;> exact fun x hx => hw x hx
  | playerRemoved u =>
    have hp := removePlayer_preserves_phase r u
    intro x hx
    rw [hp.2.2.2.2] at hx
    rw [hp.2.2.2.1]
    exact hw x hx
  | wordRecorded w2 => exact addUsedWords_wordInv r w2
  | pointsAdded u n =>
    intro x hx
    rw [addPoints_lastWord] at hx
    rw [addPoints_used]
    exact hw x hx
  | turnOrderInitialized shuffle => exact fun x hx => hw x hx
  | turnAdvanced =>
    intro x hx
    rw [nextTurn_lastWord] at hx
    rw [nextTurn_used]
    exact hw x hx
  | wordSubmitted u w2 =>
    simp only [playWord]
    split_ifs with h
    · intro x hx
      rw [startRound_lastWord, nextTurn_lastWord] at hx
      rw [startRound_used, nextTurn_used]
      exact addUsedWords_wordInv _ w2 x hx
    · exact fun x hx => hw x hx
  | gameStartAttempted shuffle =>
    simp only [startGame]
    split_ifs with h1 h2
    · exact fun x hx => hw x hx
    · exact fun x hx => hw x hx
    · intro x hx
      rw [startRound_lastWord] at hx
      exact Option.noConfusion hx
  | roundStarted =>
    intro x hx
    rw [startRound_lastWord] at hx
    rw [startRound_used]
    exact hw x hx
  | roundTimeoutHandled =>
    intro x hx
    unfold handleRoundTimeout at hx ⊢
    rw [startRound_lastWord, nextTurn_lastWord, addPoints_lastWord] at hx
    rw [startRound_used, nextTurn_used, addPoints_used]
    exact hw x hx
  | timersCleared => exact fun x hx => hw x hx
  | roomDeleted reason => exact fun x hx => hw x hx

/-- C10 witness: the invariant transported across a concrete
`addUsedWords` step from a state with no last word. -/
theorem c10_witness : wordInv (addUsedWords roomTie "apple") :=
  c10_last_word_in_used roomTie (addUsedWords roomTie "apple")
    (fun _ h => Option.noConfusion h) (Step.wordRecorded roomTie "apple")

end BlackTea
